import Mathlib

/-!
Verification of the sanitization/validation subsystem of the Jia web
application (the module `src/lib/security/sanitize.ts`, whose full source is
embedded in the repository README together with its unit tests).

JavaScript strings are modelled as lists of characters (`Str`), JavaScript
runtime values as the inductive type `JSVal`.  The two external library
functions the module calls are handled as follows:

* `DOMPurify.sanitize` (the HTML tree sanitizer) is not part of the
  repository; every definition that needs it takes it as an explicit
  function parameter `dompurify`, so all theorems about the guard logic and
  the object traversal hold for every possible behaviour of the library.
* `validator.escape` and `validator.isURL` are likewise library code; they
  are modelled from the specification (see the doc comments on `escapeChar`
  and `isURL`).
-/

namespace Jia

/-- JavaScript strings, modelled as lists of characters. -/
abbrev Str := List Char

/-- JavaScript runtime values relevant to the sanitization subsystem. -/
inductive JSVal where
  | null
  | undefined
  | boolean (b : Bool)
  | num (n : Int)
  | str (s : Str)
  | arr (elems : List JSVal)
  | obj (fields : List (Str × JSVal))

/-- JavaScript truthiness of a value (`!v` is the negation of this). -/
def truthy : JSVal → Bool
  | .null => false
  | .undefined => false
  | .boolean b => b
  | .num n => n != 0
  | .str s => !s.isEmpty
  | .arr _ => true
  | .obj _ => true

/-- `typeof v === 'string'`. -/
def isString : JSVal → Bool
  | .str _ => true
  | _ => false

/-- `Array.isArray(v)`. -/
def isArray : JSVal → Bool
  | .arr _ => true
  | _ => false

/-- The character content of a string value; only meaningful where the
source has already established that the value is a string. -/
def asStr : JSVal → Str
  | .str s => s
  | _ => []

/-- The JavaScript whitespace characters: the set stripped by
`String.prototype.trim` and matched by the regex class `\s`. -/
def isJsWS (c : Char) : Bool :=
  c = ' ' || c = '\t' || c = '\n' || c = '\r' || c = '\x0b' || c = '\x0c' ||
  c = '\u00A0' || c = '\u1680' || ('\u2000' ≤ c && c ≤ '\u200A') ||
  c = '\u2028' || c = '\u2029' || c = '\u202F' || c = '\u205F' ||
  c = '\u3000' || c = '\uFEFF'

/-- `String.prototype.trim`: remove leading and trailing whitespace. -/
def trim (l : Str) : Str :=
  ((l.dropWhile isJsWS).reverse.dropWhile isJsWS).reverse

/-- Helper realising the global replacement of the tag pattern of
`sanitizeText` (a less-than sign, then any run of characters other than a
greater-than sign, then a greater-than sign) by the empty string, as a
single structural recursion.  For an input `l` it returns a pair whose
first component is `l` with every such match removed (matches are found
leftmost-first and do not overlap, exactly as the JavaScript global regex
replacement does), and whose second component is, when `l` contains a
greater-than sign, the first component computed for the suffix of `l`
following its first greater-than sign - which is precisely the remainder
used when a match starting at a less-than sign swallows everything up to
that greater-than sign. -/
def stAux : Str → Str × Option Str
  | [] => ([], none)
  | c :: cs =>
    let r := stAux cs
    if c = '>' then (c :: r.1, some r.1)
    else if c = '<' then
      match r.2 with
      | some b => (b, r.2)
      | none => (c :: r.1, r.2)
    else (c :: r.1, r.2)

/-- `text.replace(/<[^>]*>/g, '')`: remove every HTML-tag-like substring. -/
def stripTags (l : Str) : Str := (stAux l).1

/-- Modelled from the spec: the escaping step of `sanitizeText` delegates to
`validator.escape`, library code that is not part of this repository.  Per
the spec it escapes the special characters ampersand, less-than,
greater-than, double quote, single quote and slash into their HTML entity
forms; every other character is kept unchanged. -/
def escapeChar (c : Char) : Str :=
  if c = '&' then ['&', 'a', 'm', 'p', ';']
  else if c = '<' then ['&', 'l', 't', ';']
  else if c = '>' then ['&', 'g', 't', ';']
  else if c = '"' then ['&', 'q', 'u', 'o', 't', ';']
  else if c = '\'' then ['&', '#', 'x', '2', '7', ';']
  else if c = '/' then ['&', '#', 'x', '2', 'F', ';']
  else [c]

/-- `validator.escape` applied to a whole string (character-wise; the
sequential global replacements of the library are equivalent to this single
pass because no inserted entity contains a character that a later
replacement in the chain rewrites). -/
def escape (l : Str) : Str := l.flatMap escapeChar

/-- `sanitized.replace(/\0/g, '')`: remove NUL characters. -/
def stripNul (l : Str) : Str := l.filter (fun c => c ≠ '\x00')

/-- `sanitizeText` from sanitize.ts: non-string or empty input yields the
empty string; otherwise remove tag-like substrings, escape the special
characters, strip NUL characters, and trim. -/
def sanitizeText (v : JSVal) : Str :=
  if truthy v && isString v then
    trim (stripNul (escape (stripTags (asStr v))))
  else []

/-- `sanitizeHTML` from sanitize.ts.  The HTML tree sanitization itself is
`DOMPurify.sanitize` with the allow-list configuration, an external library
that is not part of this repository; it is taken as the parameter
`dompurify`.  The guard (non-string or empty input yields the empty string)
is the repository's own code. -/
def sanitizeHTML (dompurify : Str → Str) (v : JSVal) : Str :=
  if truthy v && isString v then dompurify (asStr v) else []

/-- The deny-listed schemes of `sanitizeURL`, in source order. -/
def dangerousProtocols : List Str :=
  ["javascript:".data, "data:".data, "vbscript:".data, "file:".data]

/-- `str.toLowerCase()` (ASCII case folding; the deny-list consists of
ASCII-only schemes, for which this matches the JavaScript behaviour). -/
def lowerStr (l : Str) : Str := l.map Char.toLower

/-- Does `f` accept some suffix of the input?  (Used for regex matching "at
any position" and for substring tests.) -/
def anySuffix (f : Str → Bool) : Str → Bool
  | [] => f []
  | c :: cs => f (c :: cs) || anySuffix f cs

/-- Case-sensitive substring test. -/
def hasSub (p s : Str) : Bool := anySuffix (fun t => p.isPrefixOf t) s

/-- Modelled from the spec: host/path shape check used by `isURL` below;
a nonempty, whitespace-free string whose host part (up to the first slash)
contains a dot. -/
def hostOk (r : Str) : Bool :=
  !r.isEmpty && r.all (fun c => !isJsWS c) &&
  (r.takeWhile (fun c => c ≠ '/')).contains '.'

/-- Modelled from the spec: `validator.isURL(trimmed, { protocols:
['http','https'], require_protocol: false })` is library code that is not
part of this repository.  Per the spec (section 4.3): the value must be a
well-formed URL; the scheme is optional, but when present must be http or
https; bare host/path forms are accepted. -/
def isURL (s : Str) : Bool :=
  if ("http://".data).isPrefixOf (lowerStr s) then hostOk (s.drop 7)
  else if ("https://".data).isPrefixOf (lowerStr s) then hostOk (s.drop 8)
  else !(hasSub "://".data s) && hostOk s

/-- `sanitizeURL` from sanitize.ts: non-string or empty input yields the
empty string; trim; reject (case-insensitively) any value starting with a
deny-listed scheme; then validate with the URL grammar; valid input is
returned trimmed and otherwise unchanged. -/
def sanitizeURL (v : JSVal) : Str :=
  if truthy v && isString v then
    let trimmed := trim (asStr v)
    let lowerUrl := lowerStr trimmed
    if dangerousProtocols.any (fun p => p.isPrefixOf lowerUrl) then []
    else if !isURL trimmed then []
    else trimmed
  else []

mutual
/-- `sanitizeObject` from sanitize.ts: non-object values (including
strings, numbers, booleans, null and undefined) are returned unchanged;
arrays are mapped recursively; for plain objects every entry is processed
by the rules of `sanitizeFields`. -/
def sanitizeObject (dompurify : Str → Str) : JSVal → List Str → JSVal
  | .arr elems, htmlFields => .arr (sanitizeList dompurify elems htmlFields)
  | .obj fields, htmlFields => .obj (sanitizeFields dompurify fields htmlFields)
  | v, _ => v

/-- `obj.map(item => sanitizeObject(item, htmlFields))`. -/
def sanitizeList (dompurify : Str → Str) : List JSVal → List Str → List JSVal
  | [], _ => []
  | x :: xs, htmlFields =>
    sanitizeObject dompurify x htmlFields :: sanitizeList dompurify xs htmlFields

/-- The `for (const [key, value] of Object.entries(obj))` loop of
`sanitizeObject`: null/undefined entries pass through; string entries get
`sanitizeHTML` when the key is in `htmlFields` and `sanitizeText`
otherwise; nested objects and arrays recurse; other values pass through. -/
def sanitizeFields (dompurify : Str → Str) :
    List (Str × JSVal) → List Str → List (Str × JSVal)
  | [], _ => []
  | (key, value) :: rest, htmlFields =>
    (key,
      match value with
      | .null => JSVal.null
      | .undefined => JSVal.undefined
      | .str s =>
        if htmlFields.contains key then .str (sanitizeHTML dompurify (.str s))
        else .str (sanitizeText (.str s))
      | .arr es => sanitizeObject dompurify (.arr es) htmlFields
      | .obj fs => sanitizeObject dompurify (.obj fs) htmlFields
      | other => other) :: sanitizeFields dompurify rest htmlFields
end

/-- Field names used by `validateCareerData`. -/
def jobTitleK : Str := "jobTitle".data

def descriptionK : Str := "description".data

def locationK : Str := "location".data

def workSetupK : Str := "workSetup".data

def questionsK : Str := "questions".data

/-- The error messages of `validateCareerData`, verbatim from the source. -/
def jobTitleMsg : Str := "Job title is required and must be a string".data

def descriptionMsg : Str := "Description is required and must be a string".data

def locationMsg : Str := "Location is required and must be a string".data

def workSetupMsg : Str := "Work setup is required and must be a string".data

def jobTitleLenMsg : Str := "Job title must be less than 200 characters".data

def descriptionLenMsg : Str :=
  "Description must be less than 10000 characters".data

def questionsMsg : Str := "Questions must be an array".data

/-- Property access `data.key`: lookup in a plain object, `undefined` on
every other value shape used by the claims. -/
def getField (data : JSVal) (key : Str) : JSVal :=
  match data with
  | .obj fields => (List.lookup key fields).getD .undefined
  | _ => .undefined

/-- The `{ isValid, error? }` result shape of `validateCareerData`. -/
structure ValidationResult where
  isValid : Bool
  error : Option Str
deriving DecidableEq

/-- `validateCareerData` from sanitize.ts: required string fields checked
in order (`!data.f || typeof data.f !== 'string'`, written here by De
Morgan as the negation of `truthy && isString`), then the two length
limits, then the optional `questions` array check. -/
def validateCareerData (data : JSVal) : ValidationResult :=
  if !(truthy (getField data jobTitleK) && isString (getField data jobTitleK)) then
    ⟨false, some jobTitleMsg⟩
  else if !(truthy (getField data descriptionK) && isString (getField data descriptionK)) then
    ⟨false, some descriptionMsg⟩
  else if !(truthy (getField data locationK) && isString (getField data locationK)) then
    ⟨false, some locationMsg⟩
  else if !(truthy (getField data workSetupK) && isString (getField data workSetupK)) then
    ⟨false, some workSetupMsg⟩
  else if 200 < (asStr (getField data jobTitleK)).length then
    ⟨false, some jobTitleLenMsg⟩
  else if 10000 < (asStr (getField data descriptionK)).length then
    ⟨false, some descriptionLenMsg⟩
  else if truthy (getField data questionsK) && !isArray (getField data questionsK) then
    ⟨false, some questionsMsg⟩
  else ⟨true, none⟩

/-- Case-insensitive (ASCII folding) match of the lowercase pattern `p`
against the beginning of `t`; the regex literals of `detectXSS` contain
only ASCII, for which this matches the JavaScript `i` flag semantics. -/
def ciPref : Str → Str → Bool
  | [], _ => true
  | _ :: _, [] => false
  | p :: ps, c :: cs => (Char.toLower c = p) && ciPref ps cs

/-- The line terminators that the regex metacharacter for "any character"
does not match. -/
def isLineTerm (c : Char) : Bool :=
  c = '\n' || c = '\r' || c = '\u2028' || c = '\u2029'

/-- The regex word characters `\w`. -/
def isWordChar (c : Char) : Bool :=
  ('a' ≤ c && c ≤ 'z') || ('A' ≤ c && c ≤ 'Z') || ('0' ≤ c && c ≤ '9') || c = '_'

/-- Scan of the non-greedy script-tag body: succeed as soon as the closing
tag starts, fail on a line terminator or at the end of the input. -/
def bodyScan : Str → Bool
  | [] => false
  | c :: cs => ciPref "</script>".data (c :: cs) || (!isLineTerm c && bodyScan cs)

/-- After the literal `<script`: skip the attribute region (characters other
than a greater-than sign) to the closing greater-than sign, then scan the
body. -/
def afterOpenTag : Str → Bool
  | [] => false
  | c :: cs => if c = '>' then bodyScan cs else afterOpenTag cs

/-- The script open/close tag pair pattern of `detectXSS`. -/
def scriptPat (s : Str) : Bool :=
  anySuffix (fun t => ciPref "<script".data t && afterOpenTag (t.drop 7)) s

/-- The `javascript:` scheme pattern of `detectXSS`. -/
def jsProtoPat (s : Str) : Bool := anySuffix (ciPref "javascript:".data) s

/-- Optional whitespace followed by an equals sign. -/
def wsThenEq : Str → Bool
  | [] => false
  | c :: cs => if isJsWS c then wsThenEq cs else c = '='

/-- After the first word character of an event-handler name: the rest of
the word characters, then optional whitespace and an equals sign. -/
def restOn : Str → Bool
  | [] => false
  | c :: cs => if isWordChar c then restOn cs else wsThenEq (c :: cs)

/-- At least one word character, then optional whitespace and an equals
sign. -/
def afterOn : Str → Bool
  | [] => false
  | c :: cs => isWordChar c && restOn cs

/-- The generic event-handler attribute pattern of `detectXSS` (the
letters o and n, one or more word characters, optional whitespace, an
equals sign). -/
def onAttrPat (s : Str) : Bool :=
  anySuffix (fun t => ciPref "on".data t && afterOn (t.drop 2)) s

/-- Case-insensitive substring test for the remaining fixed signatures. -/
def containsCI (p s : Str) : Bool := anySuffix (ciPref p) s

def iframePat (s : Str) : Bool := containsCI "<iframe".data s

def evalPat (s : Str) : Bool := containsCI "eval(".data s

def exprPat (s : Str) : Bool := containsCI "expression(".data s

def embedPat (s : Str) : Bool := containsCI "<embed".data s

def objectPat (s : Str) : Bool := containsCI "<object".data s

/-- `detectXSS` from sanitize.ts: false for non-string or empty input,
otherwise true exactly when one of the fixed signature patterns matches,
in source order. -/
def detectXSS (v : JSVal) : Bool :=
  if truthy v && isString v then
    scriptPat (asStr v) || jsProtoPat (asStr v) || onAttrPat (asStr v) ||
    iframePat (asStr v) || evalPat (asStr v) || exprPat (asStr v) ||
    embedPat (asStr v) || objectPat (asStr v)
  else false

/-- The input of the repository's own `sanitizeObject` array unit test:
`{ items: ['<script>XSS</script>', 'Safe text'] }`. -/
def arrayTestInput : JSVal :=
  .obj [("items".data,
    .arr [.str "<script>XSS</script>".data, .str "Safe text".data])]

/-- The characters that `escape` rewrites into entities. -/
def isEscapable (c : Char) : Bool :=
  c = '&' || c = '<' || c = '>' || c = '"' || c = '\'' || c = '/'

/-!
## Helper lemmas

Shared facts about the string pipeline of `sanitizeText` and about
`validateCareerData`, used by the claim theorems below.
-/

/-- Every character of `trim l` is a character of `l`. -/
theorem mem_trim {c : Char} {l : Str} (h : c ∈ trim l) : c ∈ l := by
  unfold trim at h
  rw [List.mem_reverse] at h
  have h2 := (List.dropWhile_sublist isJsWS).subset h
  rw [List.mem_reverse] at h2
  exact (List.dropWhile_sublist isJsWS).subset h2

/-- The escaping step never emits a literal less-than sign. -/
theorem not_mem_escapeChar_lt (c : Char) : '<' ∉ escapeChar c := by
  unfold escapeChar
  split_ifs with h1 h2 h3 h4 h5 h6
  · decide
  · decide
  · decide
  · decide
  · decide
  · decide
  · simp
    exact fun h => h2 h.symm

/-- The escaping step never emits a literal greater-than sign. -/
theorem not_mem_escapeChar_gt (c : Char) : '>' ∉ escapeChar c := by
  unfold escapeChar
  split_ifs with h1 h2 h3 h4 h5 h6
  · decide
  · decide
  · decide
  · decide
  · decide
  · decide
  · simp
    exact fun h => h3 h.symm

/-- The escaping step never emits a literal double quote. -/
theorem not_mem_escapeChar_quot (c : Char) : '"' ∉ escapeChar c := by
  unfold escapeChar
  split_ifs with h1 h2 h3 h4 h5 h6
  · decide
  · decide
  · decide
  · decide
  · decide
  · decide
  · simp
    exact fun h => h4 h.symm

/-- The escaping step never emits a literal single quote. -/
theorem not_mem_escapeChar_apos (c : Char) : '\'' ∉ escapeChar c := by
  unfold escapeChar
  split_ifs with h1 h2 h3 h4 h5 h6
  · decide
  · decide
  · decide
  · decide
  · decide
  · decide
  · simp
    exact fun h => h5 h.symm

/-- The escaping step never emits a literal slash. -/
theorem not_mem_escapeChar_slash (c : Char) : '/' ∉ escapeChar c := by
  unfold escapeChar
  split_ifs with h1 h2 h3 h4 h5 h6
  · decide
  · decide
  · decide
  · decide
  · decide
  · decide
  · simp
    exact fun h => h6 h.symm

/-- Lift a per-character exclusion through `escape`. -/
theorem not_mem_escape {bad : Char} (hb : ∀ c, bad ∉ escapeChar c) (l : Str) :
    bad ∉ escape l := by
  intro hl
  rcases List.mem_flatMap.mp hl with ⟨c, _, hc⟩
  exact hb c hc

/-- `stripNul` removes every NUL character. -/
theorem nul_not_mem_stripNul (l : Str) : '\x00' ∉ stripNul l := by
  simp [stripNul]

/-- On string input, `sanitizeText` is exactly the four-step pipeline
(the guard only short-circuits the empty string, on which the pipeline is
the identity anyway). -/
theorem sanitizeText_str_eq (s : Str) :
    sanitizeText (.str s) = trim (stripNul (escape (stripTags s))) := by
  cases s with
  | nil => rfl
  | cons c cs => rfl

/-- A non-escapable character passes through `escapeChar` unchanged. -/
theorem escapeChar_eq_self {c : Char} (h : isEscapable c = false) :
    escapeChar c = [c] := by
  unfold escapeChar
  split_ifs with h1 h2 h3 h4 h5 h6 <;> simp_all [isEscapable]

/-- `escape` is the identity on strings without escapable characters. -/
theorem escape_eq_self {l : Str} (h : ∀ c ∈ l, isEscapable c = false) :
    escape l = l := by
  induction l with
  | nil => rfl
  | cons c cs ih =>
    unfold escape at *
    rw [List.flatMap_cons, escapeChar_eq_self (h c (by simp)),
      ih (fun d hd => h d (by simp [hd]))]
    rfl

/-- Without a less-than sign the tag-removal scan changes nothing. -/
theorem stAux_fst_eq_self {l : Str} (h : '<' ∉ l) : (stAux l).1 = l := by
  induction l with
  | nil => rfl
  | cons c cs ih =>
    simp only [List.mem_cons, not_or] at h
    have hlt : ¬ c = '<' := fun e => h.1 e.symm
    unfold stAux
    by_cases hgt : c = '>'
    · simp only [if_pos hgt]
      rw [ih h.2]
    · simp only [if_neg hgt, if_neg hlt]
      rw [ih h.2]

/-- `stripTags` is the identity on strings without a less-than sign. -/
theorem stripTags_eq_self {l : Str} (h : '<' ∉ l) : stripTags l = l :=
  stAux_fst_eq_self h

/-- `stripNul` is the identity on NUL-free strings. -/
theorem stripNul_eq_self {l : Str} (h : '\x00' ∉ l) : stripNul l = l := by
  unfold stripNul
  rw [List.filter_eq_self]
  intro a ha
  simp
  exact fun e => h (e ▸ ha)

/-- The head of a `dropWhile` result does not satisfy the predicate. -/
theorem head?_dropWhile_false {p : Char → Bool} {l : Str} {c : Char}
    (h : (l.dropWhile p).head? = some c) : p c = false := by
  have hh := List.head?_dropWhile_not p l
  rw [h] at hh
  exact hh

/-- `dropWhile` is the identity when the head does not satisfy the
predicate. -/
theorem dropWhile_eq_self_of_head {p : Char → Bool} {l : Str}
    (h : ∀ c, l.head? = some c → p c = false) : l.dropWhile p = l := by
  cases l with
  | nil => rfl
  | cons a as =>
    have ha := h a rfl
    simp [List.dropWhile_cons, ha]

/-- Trimming is idempotent. -/
theorem trim_trim (l : Str) : trim (trim l) = trim l := by
  by_cases hb : (l.dropWhile isJsWS).reverse.dropWhile isJsWS = []
  · unfold trim
    rw [hb]
    rfl
  · set a := l.dropWhile isJsWS with ha
    set b := a.reverse.dropWhile isJsWS with hbdef
    have hbne : b ≠ [] := hb
    obtain ⟨h0, hh0⟩ : ∃ h0, b.head? = some h0 := by
      cases hhead : b.head? with
      | none => exact absurd (List.head?_eq_none_iff.mp hhead) hbne
      | some x => exact ⟨x, rfl⟩
    have hh0ws : isJsWS h0 = false := head?_dropWhile_false hh0
    have hane : a ≠ [] := by
      intro hnil
      apply hbne
      rw [hbdef, hnil]
      rfl
    obtain ⟨y, hy⟩ : ∃ y, a.head? = some y := by
      cases hhead : a.head? with
      | none => exact absurd (List.head?_eq_none_iff.mp hhead) hane
      | some x => exact ⟨x, rfl⟩
    have hyws : isJsWS y = false := head?_dropWhile_false hy
    have hlast : b.getLast? = some y := by
      obtain ⟨w, hw⟩ := List.dropWhile_suffix (l := a.reverse) isJsWS
      have hrev : a.reverse.getLast? = some y := by
        rw [List.getLast?_reverse]
        exact hy
      rw [← hw] at hrev
      rw [List.getLast?_append] at hrev
      obtain ⟨z, hz⟩ : ∃ z, b.getLast? = some z := by
        cases hgl : b.getLast? with
        | none => exact absurd (List.getLast?_eq_none_iff.mp hgl) hbne
        | some x => exact ⟨x, rfl⟩
      rw [hz] at hrev
      simp at hrev
      rw [hz, hrev]
    show trim b.reverse = b.reverse
    unfold trim
    have e1 : b.reverse.dropWhile isJsWS = b.reverse := by
      apply dropWhile_eq_self_of_head
      intro c hc
      rw [List.head?_reverse, hlast] at hc
      cases hc
      exact hyws
    rw [e1, List.reverse_reverse]
    have e2 : b.dropWhile isJsWS = b := by
      apply dropWhile_eq_self_of_head
      intro c hc
      rw [hh0] at hc
      cases hc
      exact hh0ws
    rw [e2]

/-- Excluded characters of the escaping step never occur in `sanitizeText`
output. -/
theorem not_mem_sanitizeText {bad : Char} (hb : ∀ c, bad ∉ escapeChar c)
    (v : JSVal) : bad ∉ sanitizeText v := by
  unfold sanitizeText
  split
  · intro h
    have h1 := mem_trim h
    unfold stripNul at h1
    exact not_mem_escape hb _ (List.mem_of_mem_filter h1)
  · simp

/-- `sanitizeText` output never contains a NUL character. -/
theorem nul_not_mem_sanitizeText (v : JSVal) : '\x00' ∉ sanitizeText v := by
  unfold sanitizeText
  split
  · intro h
    exact nul_not_mem_stripNul _ (mem_trim h)
  · simp

/-- `sanitizeText` output carries no leading or trailing whitespace. -/
theorem sanitizeText_trimmed (s : Str) :
    trim (sanitizeText (.str s)) = sanitizeText (.str s) := by
  rw [sanitizeText_str_eq, trim_trim]

/-- `escapeChar` never returns the empty string. -/
theorem escapeChar_ne_nil (c : Char) : escapeChar c ≠ [] := by
  unfold escapeChar
  split_ifs <;> simp

/-- `escape` of a nonempty string is nonempty. -/
theorem escape_ne_nil {l : Str} (h : l ≠ []) : escape l ≠ [] := by
  cases l with
  | nil => exact absurd rfl h
  | cons c cs =>
    show escapeChar c ++ escape cs ≠ []
    simp [escapeChar_ne_nil c]

/-- `escapeChar` introduces a NUL character only from a NUL character. -/
theorem not_mem_escapeChar_nul {c : Char} (hc : c ≠ '\x00') :
    '\x00' ∉ escapeChar c := by
  unfold escapeChar
  split_ifs with h1 h2 h3 h4 h5 h6
  · decide
  · decide
  · decide
  · decide
  · decide
  · decide
  · simp
    exact fun h => hc h.symm

/-- `escape` of a NUL-free string is NUL-free. -/
theorem nul_not_mem_escape {l : Str} (h : '\x00' ∉ l) : '\x00' ∉ escape l := by
  intro hmem
  rcases List.mem_flatMap.mp hmem with ⟨c, hcl, hcc⟩
  exact not_mem_escapeChar_nul (fun e => h (e ▸ hcl)) hcc

/-- `escapeChar` of a non-whitespace character starts with a
non-whitespace character (entities start with an ampersand). -/
theorem head?_escapeChar_not_ws {a c : Char} (ha : isJsWS a = false)
    (h : (escapeChar a).head? = some c) : isJsWS c = false := by
  unfold escapeChar at h
  split_ifs at h
  · simp at h
    subst h
    decide
  · simp at h
    subst h
    decide
  · simp at h
    subst h
    decide
  · simp at h
    subst h
    decide
  · simp at h
    subst h
    decide
  · simp at h
    subst h
    decide
  · simp at h
    subst h
    exact ha

/-- `escapeChar` of a non-whitespace character ends with a non-whitespace
character (entities end with a semicolon). -/
theorem getLast?_escapeChar_not_ws {a c : Char} (ha : isJsWS a = false)
    (h : (escapeChar a).getLast? = some c) : isJsWS c = false := by
  unfold escapeChar at h
  split_ifs at h
  · simp at h
    subst h
    decide
  · simp at h
    subst h
    decide
  · simp at h
    subst h
    decide
  · simp at h
    subst h
    decide
  · simp at h
    subst h
    decide
  · simp at h
    subst h
    decide
  · simp at h
    subst h
    exact ha

/-- `escape` preserves a non-whitespace first character. -/
theorem head?_escape_not_ws {l : Str}
    (h : ∀ c, l.head? = some c → isJsWS c = false) :
    ∀ c, (escape l).head? = some c → isJsWS c = false := by
  cases l with
  | nil => intro c hc; simp [escape] at hc
  | cons a as =>
    intro c hc
    have he : escape (a :: as) = escapeChar a ++ escape as := by
      simp [escape]
    rw [he, List.head?_append] at hc
    obtain ⟨x, hx⟩ : ∃ x, (escapeChar a).head? = some x := by
      cases hh : (escapeChar a).head? with
      | none => exact absurd (List.head?_eq_none_iff.mp hh) (escapeChar_ne_nil a)
      | some y => exact ⟨y, rfl⟩
    rw [hx] at hc
    simp at hc
    subst hc
    exact head?_escapeChar_not_ws (h a rfl) hx

/-- `escape` preserves a non-whitespace last character. -/
theorem getLast?_escape_not_ws {l : Str}
    (h : ∀ c, l.getLast? = some c → isJsWS c = false) :
    ∀ c, (escape l).getLast? = some c → isJsWS c = false := by
  induction l with
  | nil => intro c hc; simp [escape] at hc
  | cons a as ih =>
    intro c hc
    cases as with
    | nil =>
      have he : escape [a] = escapeChar a := by simp [escape]
      rw [he] at hc
      exact getLast?_escapeChar_not_ws (h a rfl) hc
    | cons b bs =>
      have he : escape (a :: b :: bs) = escapeChar a ++ escape (b :: bs) := by
        simp [escape]
      rw [he, List.getLast?_append] at hc
      have hne : escape (b :: bs) ≠ [] := escape_ne_nil (by simp)
      obtain ⟨z, hz⟩ : ∃ z, (escape (b :: bs)).getLast? = some z := by
        cases hgl : (escape (b :: bs)).getLast? with
        | none => exact absurd (List.getLast?_eq_none_iff.mp hgl) hne
        | some x => exact ⟨x, rfl⟩
      rw [hz] at hc
      simp at hc
      subst hc
      exact ih (fun d hd => h d (by rw [List.getLast?_cons_cons]; exact hd)) z hz

/-- Every `escapeChar` output has at least one character. -/
theorem one_le_length_escapeChar (c : Char) : 1 ≤ (escapeChar c).length := by
  unfold escapeChar
  split_ifs <;> simp

/-- Escaping never shortens a string. -/
theorem length_le_length_escape (l : Str) : l.length ≤ (escape l).length := by
  induction l with
  | nil => simp [escape]
  | cons b bs ihb =>
    have he : escape (b :: bs) = escapeChar b ++ escape bs := by simp [escape]
    rw [he, List.length_append, List.length_cons]
    have h1 := one_le_length_escapeChar b
    omega

/-- Escaping a string that contains an ampersand strictly lengthens it. -/
theorem length_lt_length_escape {l : Str} (h : '&' ∈ l) :
    l.length < (escape l).length := by
  induction l with
  | nil => simp at h
  | cons a as ih =>
    have he : escape (a :: as) = escapeChar a ++ escape as := by simp [escape]
    rw [he, List.length_append, List.length_cons]
    rcases List.mem_cons.mp h with rfl | hmem
    · have h5 : (escapeChar '&').length = 5 := by decide
      have hle := length_le_length_escape as
      omega
    · have h1 := one_le_length_escapeChar a
      have h2 := ih hmem
      omega

/-- The first character of a trimmed string is not whitespace. -/
theorem trim_head?_not_ws {l : Str} {c : Char}
    (h : (trim l).head? = some c) : isJsWS c = false := by
  unfold trim at h
  rw [List.head?_reverse] at h
  set a := l.dropWhile isJsWS with ha
  set b := a.reverse.dropWhile isJsWS with hb
  have hbne : b ≠ [] := by
    intro hnil
    rw [hnil] at h
    simp at h
  obtain ⟨w, hw⟩ := List.dropWhile_suffix (l := a.reverse) isJsWS
  have hrev : a.reverse.getLast? = a.head? := List.getLast?_reverse a
  rw [← hw, List.getLast?_append, h] at hrev
  simp at hrev
  exact head?_dropWhile_false hrev.symm

/-- The last character of a trimmed string is not whitespace. -/
theorem trim_getLast?_not_ws {l : Str} {c : Char}
    (h : (trim l).getLast? = some c) : isJsWS c = false := by
  unfold trim at h
  rw [List.getLast?_reverse] at h
  exact head?_dropWhile_false h

/-- `trim` is the identity on strings with non-whitespace ends. -/
theorem trim_eq_self {l : Str}
    (h1 : ∀ c, l.head? = some c → isJsWS c = false)
    (h2 : ∀ c, l.getLast? = some c → isJsWS c = false) : trim l = l := by
  unfold trim
  rw [dropWhile_eq_self_of_head h1]
  rw [dropWhile_eq_self_of_head (fun c hc => h2 c (by rwa [List.head?_reverse] at hc))]
  exact List.reverse_reverse l

/-- When the output of `sanitizeText` contains an ampersand, a second
application escapes it again and strictly lengthens the string, so
idempotence fails. -/
theorem sanitizeText_not_idem_of_amp {s : Str} (h : '&' ∈ sanitizeText (.str s)) :
    sanitizeText (.str (sanitizeText (.str s))) ≠ sanitizeText (.str s) := by
  have hlt : '<' ∉ sanitizeText (.str s) :=
    not_mem_sanitizeText not_mem_escapeChar_lt _
  have hnul : '\x00' ∉ sanitizeText (.str s) := nul_not_mem_sanitizeText _
  have hth : ∀ c, (sanitizeText (.str s)).head? = some c → isJsWS c = false := by
    intro c hc
    rw [sanitizeText_str_eq] at hc
    exact trim_head?_not_ws hc
  have htl : ∀ c, (sanitizeText (.str s)).getLast? = some c → isJsWS c = false := by
    intro c hc
    rw [sanitizeText_str_eq] at hc
    exact trim_getLast?_not_ws hc
  have h2 : sanitizeText (.str (sanitizeText (.str s))) =
      escape (sanitizeText (.str s)) := by
    rw [sanitizeText_str_eq (sanitizeText (.str s)), stripTags_eq_self hlt,
      stripNul_eq_self (nul_not_mem_escape hnul),
      trim_eq_self (head?_escape_not_ws hth) (getLast?_escape_not_ws htl)]
  rw [h2]
  intro heq
  have hlen := length_lt_length_escape h
  rw [heq] at hlen
  exact Nat.lt_irrefl _ hlen

/-- First required-field check fails. -/
theorem vcd_fail_jobTitle {data : JSVal}
    (h : (truthy (getField data jobTitleK) && isString (getField data jobTitleK)) = false) :
    validateCareerData data = ⟨false, some jobTitleMsg⟩ := by
  unfold validateCareerData
  simp [h]

/-- Second required-field check fails. -/
theorem vcd_fail_description {data : JSVal}
    (h1 : (truthy (getField data jobTitleK) && isString (getField data jobTitleK)) = true)
    (h2 : (truthy (getField data descriptionK) && isString (getField data descriptionK)) = false) :
    validateCareerData data = ⟨false, some descriptionMsg⟩ := by
  unfold validateCareerData
  simp [h1, h2]

/-- Third required-field check fails. -/
theorem vcd_fail_location {data : JSVal}
    (h1 : (truthy (getField data jobTitleK) && isString (getField data jobTitleK)) = true)
    (h2 : (truthy (getField data descriptionK) && isString (getField data descriptionK)) = true)
    (h3 : (truthy (getField data locationK) && isString (getField data locationK)) = false) :
    validateCareerData data = ⟨false, some locationMsg⟩ := by
  unfold validateCareerData
  simp [h1, h2, h3]

/-- Fourth required-field check fails. -/
theorem vcd_fail_workSetup {data : JSVal}
    (h1 : (truthy (getField data jobTitleK) && isString (getField data jobTitleK)) = true)
    (h2 : (truthy (getField data descriptionK) && isString (getField data descriptionK)) = true)
    (h3 : (truthy (getField data locationK) && isString (getField data locationK)) = true)
    (h4 : (truthy (getField data workSetupK) && isString (getField data workSetupK)) = false) :
    validateCareerData data = ⟨false, some workSetupMsg⟩ := by
  unfold validateCareerData
  simp [h1, h2, h3, h4]

/-- Job-title length limit breached. -/
theorem vcd_fail_jobTitleLen {data : JSVal}
    (h1 : (truthy (getField data jobTitleK) && isString (getField data jobTitleK)) = true)
    (h2 : (truthy (getField data descriptionK) && isString (getField data descriptionK)) = true)
    (h3 : (truthy (getField data locationK) && isString (getField data locationK)) = true)
    (h4 : (truthy (getField data workSetupK) && isString (getField data workSetupK)) = true)
    (h5 : 200 < (asStr (getField data jobTitleK)).length) :
    validateCareerData data = ⟨false, some jobTitleLenMsg⟩ := by
  unfold validateCareerData
  simp [h1, h2, h3, h4, h5]

/-- Description length limit breached. -/
theorem vcd_fail_descriptionLen {data : JSVal}
    (h1 : (truthy (getField data jobTitleK) && isString (getField data jobTitleK)) = true)
    (h2 : (truthy (getField data descriptionK) && isString (getField data descriptionK)) = true)
    (h3 : (truthy (getField data locationK) && isString (getField data locationK)) = true)
    (h4 : (truthy (getField data workSetupK) && isString (getField data workSetupK)) = true)
    (h5 : (asStr (getField data jobTitleK)).length ≤ 200)
    (h6 : 10000 < (asStr (getField data descriptionK)).length) :
    validateCareerData data = ⟨false, some descriptionLenMsg⟩ := by
  unfold validateCareerData
  simp [h1, h2, h3, h4, h6, Nat.not_lt.mpr h5]

/-- The optional questions field is present but not an array. -/
theorem vcd_fail_questions {data : JSVal}
    (h1 : (truthy (getField data jobTitleK) && isString (getField data jobTitleK)) = true)
    (h2 : (truthy (getField data descriptionK) && isString (getField data descriptionK)) = true)
    (h3 : (truthy (getField data locationK) && isString (getField data locationK)) = true)
    (h4 : (truthy (getField data workSetupK) && isString (getField data workSetupK)) = true)
    (h5 : (asStr (getField data jobTitleK)).length ≤ 200)
    (h6 : (asStr (getField data descriptionK)).length ≤ 10000)
    (h7 : (truthy (getField data questionsK) && !isArray (getField data questionsK)) = true) :
    validateCareerData data = ⟨false, some questionsMsg⟩ := by
  unfold validateCareerData
  simp [h1, h2, h3, h4, h7, Nat.not_lt.mpr h5, Nat.not_lt.mpr h6]

/-- All checks pass. -/
theorem vcd_ok {data : JSVal}
    (h1 : (truthy (getField data jobTitleK) && isString (getField data jobTitleK)) = true)
    (h2 : (truthy (getField data descriptionK) && isString (getField data descriptionK)) = true)
    (h3 : (truthy (getField data locationK) && isString (getField data locationK)) = true)
    (h4 : (truthy (getField data workSetupK) && isString (getField data workSetupK)) = true)
    (h5 : (asStr (getField data jobTitleK)).length ≤ 200)
    (h6 : (asStr (getField data descriptionK)).length ≤ 10000)
    (h7 : (truthy (getField data questionsK) && !isArray (getField data questionsK)) = false) :
    validateCareerData data = ⟨true, none⟩ := by
  unfold validateCareerData
  simp [h1, h2, h3, h4, h7, Nat.not_lt.mpr h5, Nat.not_lt.mpr h6]

/-!
## Claim theorems
-/

/-- C1 (code bug): `sanitizeObject` is claimed (by the spec and by the
repository's own unit test `should handle arrays`) to sanitize every string
leaf, but strings occurring as array elements hit the non-object guard and
are returned completely unchanged, whatever the HTML sanitizer does.  On
the repository's own test input `{ items: ['<script>XSS</script>', 'Safe
text'] }` with no HTML fields, the whole structure comes back identical -
while the plain-text mode the claim requires for those leaves would have
produced `'XSS'` for the first element. -/
theorem sanitizeObject_array_test_unchanged (dompurify : Str → Str) :
    sanitizeObject dompurify arrayTestInput [] = arrayTestInput ∧
    sanitizeText (.str "<script>XSS</script>".data) = "XSS".data ∧
    "<script>XSS</script>".data ≠ "XSS".data := by
  refine ⟨?_, by decide, by decide⟩
  simp [arrayTestInput, sanitizeObject, sanitizeFields, sanitizeList]

/-- C2 (confirmed): `sanitizeObject` returns every string argument
unchanged, and every string that occurs as a direct element of an array is
likewise returned unchanged at its position; string values are rewritten
only when they appear as the value of an object key. -/
theorem sanitizeObject_string_passthrough (dompurify : Str → Str) (F : List Str) :
    (∀ s : Str, sanitizeObject dompurify (.str s) F = .str s) ∧
    (∀ (l : List JSVal) (i : Nat) (s : Str), l[i]? = some (.str s) →
      ∃ l', sanitizeObject dompurify (.arr l) F = .arr l' ∧
        l'[i]? = some (.str s)) := by
  constructor
  · intro s
    simp [sanitizeObject]
  · intro l i s h
    refine ⟨sanitizeList dompurify l F, by simp [sanitizeObject], ?_⟩
    have hm : ∀ m : List JSVal,
        sanitizeList dompurify m F = m.map (fun e => sanitizeObject dompurify e F) := by
      intro m
      induction m with
      | nil => rfl
      | cons x xs ih => simp [sanitizeList, ih]
    rw [hm, List.getElem?_map, h]
    simp [sanitizeObject]

/-- Witness for C2 at a concrete input: a one-element array whose element
is the string consisting of a less-than sign. -/
theorem sanitizeObject_string_passthrough_witness :
    ∃ l', sanitizeObject (fun s => s) (.arr [.str ['<']]) [] = .arr l' ∧
      l'[0]? = some (.str ['<']) :=
  (sanitizeObject_string_passthrough (fun s => s) []).2 [.str ['<']] 0 ['<'] rfl

/-- C3 (counterexample): `sanitizeText` is not idempotent.  On the input
consisting of a single ampersand the first pass produces the entity for the
ampersand and the second pass re-escapes that entity's own ampersand. -/
theorem sanitizeText_double_escape :
    sanitizeText (.str (sanitizeText (.str ['&']))) ≠ sanitizeText (.str ['&']) ∧
    sanitizeText (.str ['&']) = ['&', 'a', 'm', 'p', ';'] ∧
    sanitizeText (.str (sanitizeText (.str ['&']))) =
      ['&', 'a', 'm', 'p', ';', 'a', 'm', 'p', ';'] := by
  decide

/-- When the output of `sanitizeText` contains no ampersand, it contains no
escapable character at all, and a second application changes nothing. -/
theorem sanitizeText_idem_of_no_amp {s : Str}
    (h : '&' ∉ sanitizeText (.str s)) :
    sanitizeText (.str (sanitizeText (.str s))) = sanitizeText (.str s) := by
  have hlt := not_mem_sanitizeText not_mem_escapeChar_lt (.str s)
  have hgt := not_mem_sanitizeText not_mem_escapeChar_gt (.str s)
  have hq := not_mem_sanitizeText not_mem_escapeChar_quot (.str s)
  have hap := not_mem_sanitizeText not_mem_escapeChar_apos (.str s)
  have hsl := not_mem_sanitizeText not_mem_escapeChar_slash (.str s)
  have hnul := nul_not_mem_sanitizeText (.str s)
  have hesc : ∀ c ∈ sanitizeText (.str s), isEscapable c = false := by
    intro c hc
    have n1 : c ≠ '&' := fun e => h (e ▸ hc)
    have n2 : c ≠ '<' := fun e => hlt (e ▸ hc)
    have n3 : c ≠ '>' := fun e => hgt (e ▸ hc)
    have n4 : c ≠ '"' := fun e => hq (e ▸ hc)
    have n5 : c ≠ '\'' := fun e => hap (e ▸ hc)
    have n6 : c ≠ '/' := fun e => hsl (e ▸ hc)
    simp [isEscapable, n1, n2, n3, n4, n5, n6]
  rw [sanitizeText_str_eq (sanitizeText (.str s)), stripTags_eq_self hlt,
    escape_eq_self hesc, stripNul_eq_self hnul, sanitizeText_trimmed]

/-- C3 (amended): `sanitizeText` is idempotent exactly on the inputs whose
sanitized output contains no ampersand: a second application leaves the
output unchanged if and only if that output is ampersand-free (when an
ampersand is present the second pass re-escapes it and strictly lengthens
the string). -/
theorem sanitizeText_idempotent_iff_no_amp (s : Str) :
    sanitizeText (.str (sanitizeText (.str s))) = sanitizeText (.str s) ↔
    '&' ∉ sanitizeText (.str s) := by
  constructor
  · intro heq hamp
    exact sanitizeText_not_idem_of_amp hamp heq
  · exact sanitizeText_idem_of_no_amp

/-- Witness for C3's amended theorem: both directions exercised, at the
one-character inputs x and ampersand. -/
theorem sanitizeText_idempotent_iff_no_amp_witness :
    (sanitizeText (.str (sanitizeText (.str ['x']))) = sanitizeText (.str ['x'])) ∧
    ¬ (sanitizeText (.str (sanitizeText (.str ['&']))) = sanitizeText (.str ['&'])) :=
  ⟨(sanitizeText_idempotent_iff_no_amp ['x']).mpr (by decide),
   fun heq => absurd ((sanitizeText_idempotent_iff_no_amp ['&']).mp heq) (by decide)⟩

/-- C4 (confirmed): `sanitizeText` output never contains a less-than sign,
a greater-than sign, or a NUL character, and on string input it is exactly
the pipeline: remove tag-like substrings, then escape, then strip NUL
characters, then trim. -/
theorem sanitizeText_output_guarantee :
    (∀ v : JSVal,
      '<' ∉ sanitizeText v ∧ '>' ∉ sanitizeText v ∧ '\x00' ∉ sanitizeText v) ∧
    (∀ s : Str, sanitizeText (.str s) = trim (stripNul (escape (stripTags s)))) := by
  constructor
  · intro v
    exact ⟨not_mem_sanitizeText not_mem_escapeChar_lt v,
      not_mem_sanitizeText not_mem_escapeChar_gt v,
      nul_not_mem_sanitizeText v⟩
  · exact sanitizeText_str_eq

/-- C5 (confirmed): `sanitizeURL` on a string either returns the empty
string or returns the trimmed input unchanged with the URL grammar
accepting it; and whenever the trimmed, lower-cased input starts with a
deny-listed scheme the result is the empty string, regardless of the
grammar check (the deny-list runs first).  The spec's concrete example of
a valid URL is returned unchanged. -/
theorem sanitizeURL_spec (s : Str) :
    (sanitizeURL (.str s) = [] ∨
      (sanitizeURL (.str s) = trim s ∧ isURL (trim s) = true)) ∧
    (dangerousProtocols.any (fun p => p.isPrefixOf (lowerStr (trim s))) = true →
      sanitizeURL (.str s) = []) ∧
    sanitizeURL (.str "https://example.com".data) = "https://example.com".data := by
  have hmain : (sanitizeURL (.str s) = [] ∨
      (sanitizeURL (.str s) = trim s ∧ isURL (trim s) = true)) ∧
      (dangerousProtocols.any (fun p => p.isPrefixOf (lowerStr (trim s))) = true →
        sanitizeURL (.str s) = []) := by
    unfold sanitizeURL
    by_cases hg : (truthy (.str s) && isString (.str s)) = true
    · rw [if_pos hg]
      show (_ ∨ _) ∧ _
      by_cases hd : dangerousProtocols.any
          (fun p => p.isPrefixOf (lowerStr (trim (asStr (.str s))))) = true
      · rw [if_pos hd]
        exact ⟨Or.inl rfl, fun _ => rfl⟩
      · rw [if_neg hd]
        constructor
        · by_cases hu : isURL (trim (asStr (.str s))) = true
          · rw [hu]
            exact Or.inr ⟨rfl, hu⟩
          · simp only [Bool.not_eq_true] at hu
            rw [hu]
            exact Or.inl rfl
        · intro hdeny
          exact absurd hdeny hd
    · rw [if_neg hg]
      exact ⟨Or.inl rfl, fun _ => rfl⟩
  exact ⟨hmain.1, hmain.2, by decide⟩

/-- Witness for C5 at the deny-listed input javascript:alert(1). -/
theorem sanitizeURL_spec_witness :
    sanitizeURL (.str "javascript:alert(1)".data) = [] :=
  (sanitizeURL_spec "javascript:alert(1)".data).2.1 (by decide)

/-- C6 (confirmed): `validateCareerData` checks the required string fields
jobTitle, description, location, workSetup in that fixed order,
short-circuiting on the first failure with that field's error message; on
full success it returns a valid result with no error message; the
job-title message contains the words Job title, and a document missing
jobTitle gets exactly that message. -/
theorem validateCareerData_required_fields :
    (∀ data : JSVal,
      ((truthy (getField data jobTitleK) && isString (getField data jobTitleK)) = false →
        validateCareerData data = ⟨false, some jobTitleMsg⟩) ∧
      ((truthy (getField data jobTitleK) && isString (getField data jobTitleK)) = true →
        (truthy (getField data descriptionK) && isString (getField data descriptionK)) = false →
        validateCareerData data = ⟨false, some descriptionMsg⟩) ∧
      ((truthy (getField data jobTitleK) && isString (getField data jobTitleK)) = true →
        (truthy (getField data descriptionK) && isString (getField data descriptionK)) = true →
        (truthy (getField data locationK) && isString (getField data locationK)) = false →
        validateCareerData data = ⟨false, some locationMsg⟩) ∧
      ((truthy (getField data jobTitleK) && isString (getField data jobTitleK)) = true →
        (truthy (getField data descriptionK) && isString (getField data descriptionK)) = true →
        (truthy (getField data locationK) && isString (getField data locationK)) = true →
        (truthy (getField data workSetupK) && isString (getField data workSetupK)) = false →
        validateCareerData data = ⟨false, some workSetupMsg⟩) ∧
      ((truthy (getField data jobTitleK) && isString (getField data jobTitleK)) = true →
        (truthy (getField data descriptionK) && isString (getField data descriptionK)) = true →
        (truthy (getField data locationK) && isString (getField data locationK)) = true →
        (truthy (getField data workSetupK) && isString (getField data workSetupK)) = true →
        (asStr (getField data jobTitleK)).length ≤ 200 →
        (asStr (getField data descriptionK)).length ≤ 10000 →
        (truthy (getField data questionsK) && !isArray (getField data questionsK)) = false →
        validateCareerData data = ⟨true, none⟩)) ∧
    "Job title".data <:+: jobTitleMsg ∧
    validateCareerData (.obj [(descriptionK, .str ['x']), (locationK, .str ['x']),
      (workSetupK, .str ['x'])]) = ⟨false, some jobTitleMsg⟩ := by
  refine ⟨?_, by decide, by decide⟩
  intro data
  exact ⟨fun h1 => vcd_fail_jobTitle h1,
    fun h1 h2 => vcd_fail_description h1 h2,
    fun h1 h2 h3 => vcd_fail_location h1 h2 h3,
    fun h1 h2 h3 h4 => vcd_fail_workSetup h1 h2 h3 h4,
    fun h1 h2 h3 h4 h5 h6 h7 => vcd_ok h1 h2 h3 h4 h5 h6 h7⟩

/-- Witness for C6 at a complete valid document. -/
theorem validateCareerData_required_fields_witness :
    validateCareerData (.obj [(jobTitleK, .str ['T']), (descriptionK, .str ['x']),
      (locationK, .str ['x']), (workSetupK, .str ['x'])]) = ⟨true, none⟩ :=
  (validateCareerData_required_fields.1 _).2.2.2.2
    (by decide) (by decide) (by decide) (by decide) (by decide) (by decide) (by decide)

set_option maxRecDepth 8000 in
/-- C7 (amended): after the required-field checks pass,
`validateCareerData` enforces the 200-character jobTitle limit and the
10000-character description limit with messages naming the limits, and a
201-character jobTitle yields the 200-characters message.  A questions
field that is present and truthy but not an array is rejected with a
message naming array - but presence is tested by truthiness, so a present
but falsy questions value (the empty string, zero, false, null) is skipped
by the guard and the result is valid. -/
theorem validateCareerData_length_limits :
    (∀ data : JSVal,
      ((truthy (getField data jobTitleK) && isString (getField data jobTitleK)) = true →
        (truthy (getField data descriptionK) && isString (getField data descriptionK)) = true →
        (truthy (getField data locationK) && isString (getField data locationK)) = true →
        (truthy (getField data workSetupK) && isString (getField data workSetupK)) = true →
        200 < (asStr (getField data jobTitleK)).length →
        validateCareerData data = ⟨false, some jobTitleLenMsg⟩) ∧
      ((truthy (getField data jobTitleK) && isString (getField data jobTitleK)) = true →
        (truthy (getField data descriptionK) && isString (getField data descriptionK)) = true →
        (truthy (getField data locationK) && isString (getField data locationK)) = true →
        (truthy (getField data workSetupK) && isString (getField data workSetupK)) = true →
        (asStr (getField data jobTitleK)).length ≤ 200 →
        10000 < (asStr (getField data descriptionK)).length →
        validateCareerData data = ⟨false, some descriptionLenMsg⟩) ∧
      ((truthy (getField data jobTitleK) && isString (getField data jobTitleK)) = true →
        (truthy (getField data descriptionK) && isString (getField data descriptionK)) = true →
        (truthy (getField data locationK) && isString (getField data locationK)) = true →
        (truthy (getField data workSetupK) && isString (getField data workSetupK)) = true →
        (asStr (getField data jobTitleK)).length ≤ 200 →
        (asStr (getField data descriptionK)).length ≤ 10000 →
        (truthy (getField data questionsK) && !isArray (getField data questionsK)) = true →
        validateCareerData data = ⟨false, some questionsMsg⟩) ∧
      ((truthy (getField data jobTitleK) && isString (getField data jobTitleK)) = true →
        (truthy (getField data descriptionK) && isString (getField data descriptionK)) = true →
        (truthy (getField data locationK) && isString (getField data locationK)) = true →
        (truthy (getField data workSetupK) && isString (getField data workSetupK)) = true →
        (asStr (getField data jobTitleK)).length ≤ 200 →
        (asStr (getField data descriptionK)).length ≤ 10000 →
        truthy (getField data questionsK) = false →
        validateCareerData data = ⟨true, none⟩)) ∧
    "200 characters".data <:+: jobTitleLenMsg ∧
    "10000 characters".data <:+: descriptionLenMsg ∧
    "array".data <:+: questionsMsg ∧
    validateCareerData (.obj [(jobTitleK, .str (List.replicate 201 'A')),
      (descriptionK, .str ['x']), (locationK, .str ['x']),
      (workSetupK, .str ['x'])]) = ⟨false, some jobTitleLenMsg⟩ := by
  refine ⟨?_, by decide, by decide, by decide, by decide⟩
  intro data
  exact ⟨fun h1 h2 h3 h4 h5 => vcd_fail_jobTitleLen h1 h2 h3 h4 h5,
    fun h1 h2 h3 h4 h5 h6 => vcd_fail_descriptionLen h1 h2 h3 h4 h5 h6,
    fun h1 h2 h3 h4 h5 h6 h7 => vcd_fail_questions h1 h2 h3 h4 h5 h6 h7,
    fun h1 h2 h3 h4 h5 h6 h7 => vcd_ok h1 h2 h3 h4 h5 h6 (by simp [h7])⟩

/-- Witness for C7 at a document whose questions field is a string. -/
theorem validateCareerData_length_limits_witness :
    validateCareerData (.obj [(jobTitleK, .str ['T']), (descriptionK, .str ['x']),
      (locationK, .str ['x']), (workSetupK, .str ['x']),
      (questionsK, .str ['q'])]) = ⟨false, some questionsMsg⟩ :=
  (validateCareerData_length_limits.1 _).2.2.1
    (by decide) (by decide) (by decide) (by decide) (by decide) (by decide) (by decide)

/-- C7 (counterexample): a questions field that is present but not an
array does not always yield an invalid result - a falsy value such as the
number 0 is skipped by the truthiness guard of
`data.questions && !Array.isArray(data.questions)` and the document is
accepted as valid. -/
theorem validateCareerData_falsy_questions_valid :
    validateCareerData (.obj [(jobTitleK, .str ['T']), (descriptionK, .str ['x']),
      (locationK, .str ['x']), (workSetupK, .str ['x']),
      (questionsK, .num 0)]) = ⟨true, none⟩ ∧
    getField (.obj [(jobTitleK, .str ['T']), (descriptionK, .str ['x']),
      (locationK, .str ['x']), (workSetupK, .str ['x']),
      (questionsK, .num 0)]) questionsK = .num 0 ∧
    isArray (.num 0) = false :=
  ⟨by decide, rfl, by decide⟩

/-- C8 (confirmed): `detectXSS` is false on every non-string value and on
the empty string; on string input it is exactly the disjunction of the
eight fixed signature patterns; the image-with-event-handler example is
detected and ordinary text is not. -/
theorem detectXSS_spec :
    (∀ v : JSVal, isString v = false → detectXSS v = false) ∧
    detectXSS (.str []) = false ∧
    (∀ s : Str, detectXSS (.str s) =
      (scriptPat s || jsProtoPat s || onAttrPat s || iframePat s ||
       evalPat s || exprPat s || embedPat s || objectPat s)) ∧
    detectXSS (.str "<img onerror=\"alert(1)\">".data) = true ∧
    detectXSS (.str "ordinary text".data) = false := by
  refine ⟨?_, rfl, ?_, by decide, by decide⟩
  · intro v h
    unfold detectXSS
    simp [h]
  · intro s
    cases s with
    | nil => rfl
    | cons c cs => rfl

/-- Witness for C8 at the non-string value null. -/
theorem detectXSS_spec_witness : detectXSS JSVal.null = false :=
  detectXSS_spec.1 JSVal.null rfl

/-- C9 (confirmed): the string sanitizers are total functions of their
input (they are plain Lean functions here, so no run can fail), and for
every input that is not a non-empty string - null, undefined, numbers,
booleans, arrays, objects, and the empty string - `sanitizeHTML`,
`sanitizeText` and `sanitizeURL` all return the empty string, for every
behaviour of the external HTML sanitizer. -/
theorem sanitizers_nonstring_empty (dompurify : Str → Str) (v : JSVal)
    (h : (truthy v && isString v) = false) :
    sanitizeHTML dompurify v = [] ∧ sanitizeText v = [] ∧ sanitizeURL v = [] := by
  unfold sanitizeHTML sanitizeText sanitizeURL
  simp [h]

/-- Witness for C9 at the value null. -/
theorem sanitizers_nonstring_empty_witness :
    sanitizeHTML (fun s => s) JSVal.null = [] ∧
    sanitizeText JSVal.null = [] ∧ sanitizeURL JSVal.null = [] :=
  sanitizers_nonstring_empty (fun s => s) JSVal.null (by decide)

/-- C10 (confirmed): presence of the required fields is tested by
truthiness, so an empty-string field is rejected with that field's
required-and-string message even though it is present and a string. -/
theorem validateCareerData_empty_string_rejected (data : JSVal) :
    (getField data jobTitleK = .str [] →
      validateCareerData data = ⟨false, some jobTitleMsg⟩) ∧
    ((truthy (getField data jobTitleK) && isString (getField data jobTitleK)) = true →
      getField data descriptionK = .str [] →
      validateCareerData data = ⟨false, some descriptionMsg⟩) ∧
    ((truthy (getField data jobTitleK) && isString (getField data jobTitleK)) = true →
      (truthy (getField data descriptionK) && isString (getField data descriptionK)) = true →
      getField data locationK = .str [] →
      validateCareerData data = ⟨false, some locationMsg⟩) ∧
    ((truthy (getField data jobTitleK) && isString (getField data jobTitleK)) = true →
      (truthy (getField data descriptionK) && isString (getField data descriptionK)) = true →
      (truthy (getField data locationK) && isString (getField data locationK)) = true →
      getField data workSetupK = .str [] →
      validateCareerData data = ⟨false, some workSetupMsg⟩) := by
  refine ⟨?_, ?_, ?_, ?_⟩
  · intro he
    exact vcd_fail_jobTitle (by rw [he]; rfl)
  · intro h1 he
    exact vcd_fail_description h1 (by rw [he]; rfl)
  · intro h1 h2 he
    exact vcd_fail_location h1 h2 (by rw [he]; rfl)
  · intro h1 h2 h3 he
    exact vcd_fail_workSetup h1 h2 h3 (by rw [he]; rfl)

/-- Witness for C10 at a document whose jobTitle is the empty string. -/
theorem validateCareerData_empty_string_rejected_witness :
    validateCareerData (.obj [(jobTitleK, .str []), (descriptionK, .str ['x']),
      (locationK, .str ['x']), (workSetupK, .str ['x'])]) = ⟨false, some jobTitleMsg⟩ :=
  (validateCareerData_empty_string_rejected _).1 rfl

end Jia
